import Mathlib

/-!
# RP24 detection overlay: frame pipeline and visualisation layer

A shallow embedding of `src/main.cpp` (colour selection, class catalog, the
overlay renderer `drawDetections` and the playback loop of `main`) together
with the properties the specification states about them.

Modelling conventions
* `float` and `double` values are rational numbers (`ℚ`); arithmetic on them is
  exact, so IEEE rounding, infinities and NaN are not represented.
* `int` is the 32-bit type: the conversions from floating values (the cast
  `(int)v` and OpenCV's `cvRound`) and the `int` arithmetic of the text origin
  are modelled with their 32-bit results. C++ leaves a conversion or a sum that
  does not fit undefined; the model gives the conversion the value the x86
  instruction returns (`INT_MIN`) and lets the sum wrap modulo `2^32`.
* A `cv::Mat` being drawn on is represented by its dimensions and by the
  ordered list of drawing calls issued on it, with the arguments each call
  receives (`cv::line` and `cv::circle` receive integer `cv::Point` values).
* Accesses that C++ leaves undefined (an out-of-range `vector` index) yield
  `none`.
-/

namespace RP24

/-! ## OpenCV value types -/

/-- The type `cv::Scalar`, four channel values; `cv::Scalar(b, g, r)` leaves the fourth at 0. -/
structure Scalar where
  v0 : Int
  v1 : Int
  v2 : Int
  v3 : Int
  deriving DecidableEq, Repr

/-- The three-argument constructor `cv::Scalar(v0, v1, v2)`. -/
def Scalar.mk3 (v0 v1 v2 : Int) : Scalar := ⟨v0, v1, v2, 0⟩

/-- The type `cv::Point2f`. -/
structure Point2f where
  x : ℚ
  y : ℚ
  deriving DecidableEq, Repr

/-- The type `cv::Point` (integer pixel coordinates). -/
structure Point where
  x : Int
  y : Int
  deriving DecidableEq, Repr

/-- The type `cv::Size`. -/
structure Size where
  width : Int
  height : Int
  deriving DecidableEq, Repr

/-- The type `cv::Rect`: top-left corner and extent. -/
structure Rect where
  x : Int
  y : Int
  width : Int
  height : Int
  deriving DecidableEq, Repr

/-- Pixel membership of `cv::Rect`: `x <= p.x < x + width` and `y <= p.y < y + height`. -/
def Rect.contains (r : Rect) (p : Point) : Prop :=
  r.x ≤ p.x ∧ p.x < r.x + r.width ∧ r.y ≤ p.y ∧ p.y < r.y + r.height

instance (r : Rect) (p : Point) : Decidable (r.contains p) := by
  unfold Rect.contains; infer_instance

/-- The constant `cv::FONT_HERSHEY_SIMPLEX`. -/
def FONT_HERSHEY_SIMPLEX : Int := 0

/-- One drawing call issued on a frame, with the arguments the call receives: `cv::line`
and `cv::circle` are declared with `cv::Point` parameters. -/
inductive DrawCmd where
  | line (pt1 pt2 : Point) (color : Scalar) (thickness : Int)
  | circle (center : Point) (radius : Int) (color : Scalar) (thickness : Int)
  | rectangle (rec : Rect) (color : Scalar) (thickness : Int)
  | putText (text : String) (org : Point) (fontFace : Int) (fontScale : ℚ)
      (color : Scalar) (thickness : Int)
  deriving DecidableEq, Repr

/-- A `cv::Mat` frame: its dimensions and the drawing calls applied to it, oldest first. -/
structure Mat where
  cols : Int
  rows : Int
  drawn : List DrawCmd
  deriving DecidableEq, Repr

/-- Apply one drawing call to a frame. -/
def Mat.draw (m : Mat) (c : DrawCmd) : Mat := { m with drawn := m.drawn ++ [c] }

/-! ## Detected objects -/

/-- Modelled from the spec: the struct `Object` is declared in `OpenvinoInfer.h`, which is
not among the sources. Section 3 gives its fields: `label` (integer class index), `prob`
(confidence), `color` (integer colour attribute) and `landmarks` (exactly 8 values,
indices `2k`, `2k+1` being the x, y of keypoint `k`). -/
structure Object where
  label : Int
  prob : ℚ
  color : Int
  landmarks : Fin 8 → ℚ

/-! ## Colour selection and class catalog -/

/-- The function `colorForId` of `main.cpp` (BGR channel order). -/
def colorForId (colorId : Int) : Scalar :=
  if colorId = 1 then Scalar.mk3 0 0 255
  else if colorId = 0 then Scalar.mk3 255 0 0
  else Scalar.mk3 0 255 255

/-- The function `colorName` of `main.cpp`. -/
def colorName (colorId : Int) : String :=
  if colorId = 1 then "Red"
  else if colorId = 0 then "Blue"
  else "Other"

/-- The function `classNames` of `main.cpp`: the fixed class catalog. -/
def classNames : Array String :=
  #["G", "1", "2", "3", "4", "5", "O", "Bs", "Bb"]

/-- The expression `names[idx]` for an `int` index: the index is converted to `size_t`
(modulo `2^64`); a position past the end is undefined behaviour, rendered as `none`. -/
def vectorAt (names : Array String) (idx : Int) : Option String :=
  names[(idx % 2 ^ 64).toNat]?

/-- The class-name resolution of `drawDetections` (the `labelText` variable): the catalog
entry under the range guard, otherwise `std::to_string(obj.label)`. -/
def labelText (names : Array String) (label : Int) : Option String :=
  if label ≥ 0 ∧ label < (names.size : Int) then vectorAt names label
  else some (toString label)

/-! ## Number formatting -/

/-- Nearest integer, ties going to the even neighbour (the rounding `printf` applies). -/
def roundHalfEven (v : ℚ) : Int :=
  let f := ⌊v⌋
  let r := v - f
  if r < 1 / 2 then f
  else if 1 / 2 < r then f + 1
  else if f % 2 = 0 then f else f + 1

/-- The `d` decimal digits of `n`, most significant first, zero padded. -/
def fracDigits (d : Nat) (n : Nat) : List Char :=
  (List.range d).reverse.map (fun i => Nat.digitChar (n / 10 ^ i % 10))

/-- The C library conversion `%.<d>f` of a finite value: optional sign, integer part,
and `d` digits after the point obtained by rounding to the nearest multiple of `10^-d`. -/
def fmtFixed (d : Nat) (v : ℚ) : String :=
  let n := (roundHalfEven (|v| * 10 ^ d)).toNat
  (if v < 0 then "-" else "") ++ toString (n / 10 ^ d)
    ++ (if d = 0 then "" else ".") ++ String.mk (fracDigits d n)

/-- The effect of `std::snprintf(buf, size, ...)` on the formatted text: at most
`size - 1` characters are stored. -/
def snprintf (size : Nat) (formatted : String) : String :=
  String.mk (formatted.data.take (size - 1))

/-- The smallest `int`. -/
def INT_MIN : Int := -2147483648

/-- The largest `int`. -/
def INT_MAX : Int := 2147483647

/-- The `int` a floating-to-integer conversion delivers for the integer `z` it computed:
`z` itself when it fits, otherwise `INT_MIN` (the result of the x86 conversion
instructions; undefined in C++). -/
def fitInt (z : Int) : Int :=
  if INT_MIN ≤ z ∧ z ≤ INT_MAX then z else INT_MIN

/-- The result of an `int` addition or subtraction whose exact value is `z`: reduced
modulo `2^32` into the `int` range. -/
def wrapInt (z : Int) : Int :=
  (z - INT_MIN) % 4294967296 + INT_MIN

/-- The cast `(int)v` of a floating value: the quotient of numerator by denominator
rounded toward zero, as an `int`. -/
def truncToInt (v : ℚ) : Int :=
  fitInt (Int.tdiv v.num v.den)

/-- The function `cvRound` of OpenCV: the nearest integer, ties to even, as an `int`. -/
def cvRound (v : ℚ) : Int :=
  fitInt (roundHalfEven v)

/-- The implicit conversion of a `cv::Point2f` argument to the `cv::Point` parameter of
`cv::line` and `cv::circle`: `saturate_cast<int>` of each coordinate, which is `cvRound`. -/
def toPoint (p : Point2f) : Point :=
  ⟨cvRound p.x, cvRound p.y⟩

/-! ## Overlay renderer -/

/-- The vector `pts640` of `drawDetections`: the four keypoints in model space. -/
def pts640 (obj : Object) : List Point2f :=
  [⟨obj.landmarks 0, obj.landmarks 1⟩,
   ⟨obj.landmarks 2, obj.landmarks 3⟩,
   ⟨obj.landmarks 4, obj.landmarks 5⟩,
   ⟨obj.landmarks 6, obj.landmarks 7⟩]

/-- The loop filling `pts`: each model-space point is scaled and appended. -/
def mapToOriginal (scaleX scaleY : ℚ) (src : List Point2f) : List Point2f :=
  src.foldl (fun pts p => pts ++ [⟨p.x * scaleX, p.y * scaleY⟩]) []

/-- The loop `for i in 0..3: cv::line(frame, pts[i], pts[(i + 1) % 4], drawColor, 2)`. -/
def drawOutline (frame : Mat) (pts : List Point2f) (drawColor : Scalar) : Option Mat :=
  (List.range 4).foldlM (fun f i => do
    let a ← pts[i]?
    let b ← pts[(i + 1) % 4]?
    pure (f.draw (DrawCmd.line (toPoint a) (toPoint b) drawColor 2))) frame

/-- The loop `for p in pts: cv::circle(frame, p, 3, drawColor, -1)`. -/
def drawMarkers (frame : Mat) (pts : List Point2f) (drawColor : Scalar) : Mat :=
  pts.foldl (fun f p => f.draw (DrawCmd.circle (toPoint p) 3 drawColor (-1))) frame

/-- The text `info` composed for one object; `probBuf` is a 32-byte buffer. -/
def infoText (names : Array String) (obj : Object) : Option String := do
  let name ← labelText names obj.label
  let probBuf := snprintf 32 (fmtFixed 2 obj.prob)
  pure (name ++ " | " ++ colorName obj.color ++ " | conf=" ++ probBuf)

/-- The computation of `min_x`, `min_y` over the four mapped points. -/
def minCorner (pts : List Point2f) : Option (ℚ × ℚ) := do
  let p0 ← pts[0]?
  (List.range' 1 3).foldlM (fun (m : ℚ × ℚ) i => do
    let p ← pts[i]?
    pure (min m.1 p.x, min m.2 p.y)) (p0.x, p0.y)

/-- The point `textOrg` of `drawDetections`:
`(std::max(0, (int)min_x), std::max(textSize.height + 2, (int)min_y - 6))`. -/
def textOrg (min_x min_y : ℚ) (textSize : Size) : Point :=
  ⟨max 0 (truncToInt min_x),
   max (wrapInt (textSize.height + 2)) (wrapInt (truncToInt min_y - 6))⟩

/-- The background rectangle drawn behind the label. -/
def labelRect (org : Point) (textSize : Size) : Rect :=
  ⟨org.x, org.y - textSize.height, textSize.width + 4, textSize.height + 4⟩

/-- The origin handed to `cv::putText` for the label (bottom-left corner of the text). -/
def labelTextPos (org : Point) : Point :=
  ⟨org.x + 2, org.y - 2⟩

/-- The body of the `for (const auto &obj : objects)` loop of `drawDetections`.
`getTextSize text fontFace fontScale thickness` stands for `cv::getTextSize`. -/
def drawObject (getTextSize : String → Int → ℚ → Int → Size) (scaleX scaleY : ℚ)
    (frame : Mat) (obj : Object) : Option Mat := do
  let drawColor := colorForId obj.color
  let pts := mapToOriginal scaleX scaleY (pts640 obj)
  let frame ← drawOutline frame pts drawColor
  let frame := drawMarkers frame pts drawColor
  let info ← infoText classNames obj
  let (min_x, min_y) ← minCorner pts
  let textSize := getTextSize info FONT_HERSHEY_SIMPLEX (1 / 2) 1
  let org := textOrg min_x min_y textSize
  let frame := frame.draw (DrawCmd.rectangle (labelRect org textSize) (Scalar.mk3 0 0 0) (-1))
  pure (frame.draw (DrawCmd.putText info (labelTextPos org) FONT_HERSHEY_SIMPLEX (1 / 2)
    (Scalar.mk3 255 255 255) 1))

/-- The function `drawDetections` of `main.cpp`. -/
def drawDetections (getTextSize : String → Int → ℚ → Int → Size) (frameToDrawOn : Mat)
    (objects : List Object) (scaleX scaleY : ℚ) : Option Mat :=
  objects.foldlM (drawObject getTextSize scaleX scaleY) frameToDrawOn

/-! ## Playback loop -/

/-- Controller states of the playback loop. -/
inductive Phase where
  | Running
  | Paused
  | Stopped
  deriving DecidableEq, Repr

/-- The calls `main` makes inside its loop, as they appear in the call trace. -/
inductive Effect where
  | read (ok : Bool)
  | resize (width height : Int)
  | infer (detectColor : Int)
  | drawDetections (count : Nat) (scaleX scaleY : ℚ)
  | putText (text : String)
  | imshow (winname : String) (img : Mat)
  | waitKey (delay : Int)
  | imwrite (filename : String) (img : Mat)
  deriving DecidableEq, Repr

/-- Values fixed before the loop starts: `inferer.IMAGE_WIDTH`, `inferer.IMAGE_HEIGHT`
(declared in the absent `OpenvinoInfer.h`), `opts.detectColor`, and `cv::getTextSize`. -/
structure Config where
  modelW : Int
  modelH : Int
  detectColor : Int
  getTextSize : String → Int → ℚ → Int → Size

/-- What the environment supplies during one step of the loop. -/
structure Env where
  /-- Result of `cap.read(frame)`: the captured frame, or `none` on failure. -/
  frame : Option Mat
  /-- Content of `inferer.tmp_objects` once `infer` has returned. -/
  objects : List Object
  /-- Reading of `steady_clock::now()` at the FPS estimate, in nanoseconds. -/
  now : Int
  /-- Value returned by `cv::waitKey(1)` (`-1` when no key was pressed). -/
  key : Int
  /-- While blocked in `cv::waitKey(0)`: the key that arrives, if one does. -/
  pausedKey : Option Int

/-- The loop variables of `main` that live across iterations. -/
structure LoopState where
  phase : Phase
  fps : ℚ
  lastTick : Int

/-- Integer code of a character literal compared with the `int` key. -/
def keyCode (c : Char) : Int := c.toNat

/-- The count of `duration_cast<milliseconds>(now - lastTick)`: whole milliseconds. -/
def elapsedMs (now lastTick : Int) : Int :=
  Int.tdiv (now - lastTick) 1000000

/-- The statement `if (ms > 0) fps = 1000.0 / ms; else fps = 0.0;`; the first argument is
the value `fps` held before the statement. -/
def fpsUpdate (_fps : ℚ) (ms : ℚ) : ℚ :=
  if ms > 0 then 1000 / ms else 0

/-- The text written into the 64-byte `fpsBuf`. -/
def fpsText (fps : ℚ) : String :=
  snprintf 64 ("FPS: " ++ fmtFixed 1 fps)

/-- The scale factor `static_cast<double>(dim) / modelDim`. -/
def scaleOf (dim modelDim : Int) : ℚ :=
  (dim : ℚ) / (modelDim : ℚ)

/-- One pass through the body of `while (true)` in `main`, up to and including the
dispatch of the polled key. -/
def loopBody (cfg : Config) (st : LoopState) (env : Env) : Option (LoopState × List Effect) :=
  match env.frame with
  | none => some ({ st with phase := Phase.Stopped }, [Effect.read false])
  | some frame => do
    let scaleX := scaleOf frame.cols cfg.modelW
    let scaleY := scaleOf frame.rows cfg.modelH
    let frameForShow ← drawDetections cfg.getTextSize frame env.objects scaleX scaleY
    let ms : ℚ := (elapsedMs env.now st.lastTick : Int)
    let fps := fpsUpdate st.fps ms
    let fpsBuf := fpsText fps
    let frameForShow := frameForShow.draw
      (DrawCmd.putText fpsBuf ⟨10, 30⟩ FONT_HERSHEY_SIMPLEX (4 / 5) (Scalar.mk3 0 255 0) 2)
    let calls := [Effect.read true, Effect.resize cfg.modelW cfg.modelH,
      Effect.infer cfg.detectColor,
      Effect.drawDetections env.objects.length scaleX scaleY,
      Effect.putText fpsBuf, Effect.imshow "RP24 Detection" frameForShow, Effect.waitKey 1]
    let st1 : LoopState := { st with fps := fps, lastTick := env.now }
    if env.key = 27 ∨ env.key = keyCode 'q' ∨ env.key = keyCode 'Q' then
      pure ({ st1 with phase := Phase.Stopped }, calls)
    else if env.key = keyCode ' ' then
      pure ({ st1 with phase := Phase.Paused }, calls ++ [Effect.waitKey 0])
    else if env.key = keyCode 's' then
      pure (st1, calls ++ [Effect.imwrite "result.jpg" frameForShow])
    else
      pure (st1, calls)

/-- One step of the playback controller. While `Paused` the controller is blocked in
`cv::waitKey(0)`: it stays there as long as no key arrives and resumes on any key. -/
def step (cfg : Config) (st : LoopState) (env : Env) : Option (LoopState × List Effect) :=
  match st.phase with
  | Phase.Running => loopBody cfg st env
  | Phase.Paused =>
    match env.pausedKey with
    | none => some (st, [])
    | some _ => some ({ st with phase := Phase.Running }, [])
  | Phase.Stopped => some (st, [])

/-- Run the controller over a sequence of environment steps, collecting the call trace. -/
def run (cfg : Config) : LoopState → List Env → Option (LoopState × List Effect)
  | st, [] => some (st, [])
  | st, env :: rest => do
    let (st1, calls) ← step cfg st env
    let (st2, more) ← run cfg st1 rest
    pure (st2, calls ++ more)

/-- The state in which `main` enters the loop after `cap.isOpened()` succeeded. -/
def initialState (now : Int) : LoopState :=
  { phase := Phase.Running, fps := 0, lastTick := now }

/-! ## Spec-side descriptions used in the statements -/

/-- The display-space point the specification assigns to keypoint `k` of an object:
`(x * sx, y * sy)` with `x`, `y` the landmarks at indices `2k`, `2k + 1`. -/
def specPoint (sx sy : ℚ) (obj : Object) (k : Fin 4) : Point2f :=
  ⟨obj.landmarks ⟨2 * k.val, by omega⟩ * sx, obj.landmarks ⟨2 * k.val + 1, by omega⟩ * sy⟩

/-- The class name the specification prescribes: the catalog name for a valid index,
otherwise the numeric label as text. -/
def specClassName (label : Int) : String :=
  if 0 ≤ label ∧ label < 9 then classNames.getD label.toNat "" else toString label

/-- The label line the specification prescribes, given the formatted probability. -/
def specInfo (obj : Object) (p : String) : String :=
  specClassName obj.label ++ " | " ++ colorName obj.color ++ " | conf=" ++ p

/-- The outline and marker calls the specification prescribes for one object: the closed
cycle `p0-p1, p1-p2, p2-p3, p3-p0`, then one filled circle per point, the points being
the mapped keypoints as pixel positions. -/
def specShape (sx sy : ℚ) (obj : Object) : List DrawCmd :=
  let c := colorForId obj.color
  let p := fun k => toPoint (specPoint sx sy obj k)
  [DrawCmd.line (p 0) (p 1) c 2, DrawCmd.line (p 1) (p 2) c 2,
   DrawCmd.line (p 2) (p 3) c 2, DrawCmd.line (p 3) (p 0) c 2,
   DrawCmd.circle (p 0) 3 c (-1), DrawCmd.circle (p 1) 3 c (-1),
   DrawCmd.circle (p 2) 3 c (-1), DrawCmd.circle (p 3) 3 c (-1)]

/-- Whether a drawing call is an outline segment or a keypoint marker. -/
def DrawCmd.isShape : DrawCmd → Bool
  | DrawCmd.line _ _ _ _ => true
  | DrawCmd.circle _ _ _ _ => true
  | _ => false

/-- Whether a drawing call is an outline segment. -/
def DrawCmd.isLine : DrawCmd → Bool
  | DrawCmd.line _ _ _ _ => true
  | _ => false

/-- Whether a drawing call is a keypoint marker. -/
def DrawCmd.isCircle : DrawCmd → Bool
  | DrawCmd.circle _ _ _ _ => true
  | _ => false

/-- The label text composed for an object. -/
def objInfo (obj : Object) : String :=
  specInfo obj (snprintf 32 (fmtFixed 2 obj.prob))

/-- The smallest x among the four mapped keypoints. -/
def specMinX (sx sy : ℚ) (obj : Object) : ℚ :=
  min (min (min (specPoint sx sy obj 0).x (specPoint sx sy obj 1).x) (specPoint sx sy obj 2).x)
    (specPoint sx sy obj 3).x

/-- The smallest y among the four mapped keypoints. -/
def specMinY (sx sy : ℚ) (obj : Object) : ℚ :=
  min (min (min (specPoint sx sy obj 0).y (specPoint sx sy obj 1).y) (specPoint sx sy obj 2).y)
    (specPoint sx sy obj 3).y

/-- The text origin computed for an object. -/
def objOrg (gts : String → Int → ℚ → Int → Size) (sx sy : ℚ) (obj : Object) : Point :=
  textOrg (specMinX sx sy obj) (specMinY sx sy obj) (gts (objInfo obj) FONT_HERSHEY_SIMPLEX (1 / 2) 1)

/-- The label calls (background, then text) issued for an object. -/
def objLabel (gts : String → Int → ℚ → Int → Size) (sx sy : ℚ) (obj : Object) : List DrawCmd :=
  [DrawCmd.rectangle (labelRect (objOrg gts sx sy obj) (gts (objInfo obj) FONT_HERSHEY_SIMPLEX (1 / 2) 1))
      (Scalar.mk3 0 0 0) (-1),
   DrawCmd.putText (objInfo obj) (labelTextPos (objOrg gts sx sy obj)) FONT_HERSHEY_SIMPLEX (1 / 2)
      (Scalar.mk3 255 255 255) 1]

/-- The text of a `putText` call. -/
def DrawCmd.text? : DrawCmd → Option String
  | DrawCmd.putText t _ _ _ _ _ => some t
  | _ => none

/-- A probability text with exactly two decimal places: optional sign, the integer part
of `n / 100`, a point, and the two last decimal digits of `n`, where `n` is the number of
hundredths shown. -/
def twoDecimals (negative : Bool) (n : Nat) : String :=
  (if negative then "-" else "") ++ toString (n / 100) ++ "."
    ++ String.mk [Nat.digitChar (n / 10 % 10), Nat.digitChar (n % 10)]

/-- Whether a call captures a frame or runs inference. -/
def Effect.isCaptureOrInfer : Effect → Bool
  | Effect.read _ => true
  | Effect.infer _ => true
  | _ => false

/-- Whether a call resizes, infers or draws. -/
def Effect.isProcessing : Effect → Bool
  | Effect.resize _ _ => true
  | Effect.infer _ => true
  | Effect.drawDetections _ _ _ => true
  | Effect.putText _ => true
  | Effect.imshow _ _ => true
  | _ => false

/-- Whether a call writes an image file. -/
def Effect.isWrite : Effect → Bool
  | Effect.imwrite _ _ => true
  | _ => false

/-- The frame presented in an iteration: the detections drawn on `frame`, then the FPS
text stamped at (10, 30). -/
def shownFrame (annotated : Mat) (fpsBuf : String) : Mat :=
  annotated.draw
    (DrawCmd.putText fpsBuf ⟨10, 30⟩ FONT_HERSHEY_SIMPLEX (4 / 5) (Scalar.mk3 0 255 0) 2)

/-- The calls every iteration with a captured frame makes, up to the key poll. -/
def iterationCalls (cfg : Config) (frame : Mat) (count : Nat) (fpsBuf : String)
    (shown : Mat) : List Effect :=
  [Effect.read true, Effect.resize cfg.modelW cfg.modelH, Effect.infer cfg.detectColor,
   Effect.drawDetections count (scaleOf frame.cols cfg.modelW) (scaleOf frame.rows cfg.modelH),
   Effect.putText fpsBuf, Effect.imshow "RP24 Detection" shown, Effect.waitKey 1]

/-- The quit keys: Esc (27), `q` and `Q`. -/
def isQuitKey (key : Int) : Prop :=
  key = 27 ∨ key = keyCode 'q' ∨ key = keyCode 'Q'

instance (key : Int) : Decidable (isQuitKey key) := by
  unfold isQuitKey; infer_instance

/-! ## Sample inputs -/

/-- The object of the end-to-end scenario: label 0, confidence 0.87, colour 1 and the
landmarks `[10,10,20,10,20,20,10,20]`. -/
def sampleObject : Object :=
  ⟨0, 87 / 100, 1, ![10, 10, 20, 10, 20, 20, 10, 20]⟩

/-- A text measurement returning 171 x 11 pixels for every text. -/
def sampleTextSize : String → Int → ℚ → Int → Size :=
  fun _ _ _ _ => ⟨171, 11⟩

/-- A 640 x 640 model with detection colour 1. -/
def sampleConfig : Config :=
  ⟨640, 640, 1, sampleTextSize⟩

/-- A freshly captured 1280 x 1280 frame. -/
def sampleFrame : Mat :=
  ⟨1280, 1280, []⟩

/-- An environment step: a frame is captured, one object is detected, the clock reads
`now` nanoseconds and `key` is polled. -/
def sampleEnv (now key : Int) : Env :=
  ⟨some sampleFrame, [sampleObject], now, key, none⟩

/-! ## Auxiliary facts -/

theorem classNames_size : classNames.size = 9 := rfl

theorem labelText_inRange (label : Int) (h0 : 0 ≤ label) (h9 : label < 9) :
    ∃ h : label.toNat < classNames.size,
      labelText classNames label = some classNames[label.toNat] := by
  have hn : label.toNat < 9 := by omega
  refine ⟨by rw [classNames_size]; exact hn, ?_⟩
  have hmod : (label % 2 ^ 64).toNat = label.toNat := by
    rw [Int.emod_eq_of_lt h0 (by omega)]
  simp only [labelText, vectorAt, classNames_size, hmod]
  rw [if_pos ⟨by omega, by exact_mod_cast h9⟩]
  exact Array.getElem?_eq_getElem _

theorem labelText_outOfRange (label : Int) (h : ¬ (0 ≤ label ∧ label < 9)) :
    labelText classNames label = some (toString label) := by
  simp only [labelText, classNames_size]
  rw [if_neg]
  simpa using h

theorem labelText_eq_spec (label : Int) :
    labelText classNames label = some (specClassName label) := by
  unfold specClassName
  by_cases h : 0 ≤ label ∧ label < 9
  · obtain ⟨hb, he⟩ := labelText_inRange label h.1 h.2
    rw [he, if_pos h]
    simp [Array.getD, hb]
  · rw [labelText_outOfRange label h, if_neg h]

theorem mapToOriginal_pts640 (sx sy : ℚ) (obj : Object) :
    mapToOriginal sx sy (pts640 obj) =
      [specPoint sx sy obj 0, specPoint sx sy obj 1,
       specPoint sx sy obj 2, specPoint sx sy obj 3] := by
  simp only [mapToOriginal, pts640, List.foldl, List.nil_append, List.cons_append]
  rfl

theorem drawOutline_four (f : Mat) (a b c d : Point2f) (col : Scalar) :
    drawOutline f [a, b, c, d] col =
      some { f with drawn := f.drawn ++
        [DrawCmd.line (toPoint a) (toPoint b) col 2, DrawCmd.line (toPoint b) (toPoint c) col 2,
         DrawCmd.line (toPoint c) (toPoint d) col 2,
         DrawCmd.line (toPoint d) (toPoint a) col 2] } := by
  simp [drawOutline, List.range, List.range.loop, Mat.draw]

theorem drawMarkers_four (f : Mat) (a b c d : Point2f) (col : Scalar) :
    drawMarkers f [a, b, c, d] col =
      { f with drawn := f.drawn ++
        [DrawCmd.circle (toPoint a) 3 col (-1), DrawCmd.circle (toPoint b) 3 col (-1),
         DrawCmd.circle (toPoint c) 3 col (-1), DrawCmd.circle (toPoint d) 3 col (-1)] } := by
  simp [drawMarkers, Mat.draw]

theorem minCorner_four (a b c d : Point2f) :
    minCorner [a, b, c, d] =
      some (min (min (min a.x b.x) c.x) d.x, min (min (min a.y b.y) c.y) d.y) := by
  simp [minCorner, List.range']

theorem roundHalfEven_near (v : ℚ) : |(roundHalfEven v : ℚ) - v| ≤ 1 / 2 := by
  have h1 := Int.floor_le v
  have h2 := Int.lt_floor_add_one v
  unfold roundHalfEven
  simp only
  split_ifs with ha hb hc
  · rw [abs_le]; constructor <;> linarith
  · rw [abs_le]; push_cast; constructor <;> linarith
  · rw [abs_le]; constructor <;> linarith
  · rw [abs_le]; push_cast; constructor <;> linarith

theorem roundHalfEven_nonneg (v : ℚ) (hv : 0 ≤ v) : 0 ≤ roundHalfEven v := by
  have h0 : (0 : Int) ≤ ⌊v⌋ := Int.floor_nonneg.mpr hv
  unfold roundHalfEven
  simp only
  split_ifs <;> omega

theorem roundHalfEven_intCast (z : Int) : roundHalfEven (z : ℚ) = z := by
  simp [roundHalfEven]

theorem fmtFixed_two (v : ℚ) :
    fmtFixed 2 v = (if v < 0 then "-" else "") ++ toString ((roundHalfEven (|v| * 100)).toNat / 100)
      ++ "." ++ String.mk [Nat.digitChar ((roundHalfEven (|v| * 100)).toNat / 10 % 10),
        Nat.digitChar ((roundHalfEven (|v| * 100)).toNat % 10)] := by
  simp [fmtFixed, fracDigits, List.range, List.range.loop]
  norm_num

theorem snprintf_of_length_le (size : Nat) (s : String) (h : s.length ≤ size - 1) :
    snprintf size s = s := by
  unfold snprintf
  rw [List.take_of_length_le h]

theorem fmtFixed_two_length (v : ℚ) (hv : |v| < 10 ^ 26) : (fmtFixed 2 v).length ≤ 31 := by
  rw [fmtFixed_two]
  set n := (roundHalfEven (|v| * 100)).toNat with hn
  have hnear := roundHalfEven_near (|v| * 100)
  have hnn := roundHalfEven_nonneg (|v| * 100) (by positivity)
  have hcast : ((n : Int) : ℚ) = (roundHalfEven (|v| * 100) : ℚ) := by
    rw [hn, Int.toNat_of_nonneg hnn]
  have hlt : (n : ℚ) < 10 ^ 28 + 1 := by
    have : ((n : Int) : ℚ) = (n : ℚ) := by push_cast; rfl
    rw [← this, hcast]
    rw [abs_le] at hnear
    linarith
  have hlt2 : n < 10 ^ 28 + 1 := by exact_mod_cast hlt
  have hdiv : n / 100 < 10 ^ 27 := by omega
  have hrep : (toString (n / 100)).length ≤ 27 := Nat.repr_length (n / 100) 27 (by norm_num) hdiv
  simp only [String.length_append]
  have hs : (if v < 0 then "-" else "").length ≤ 1 := by split_ifs <;> decide
  have hd : (".").length = 1 := by decide
  have h2 : (String.mk [Nat.digitChar (n / 10 % 10), Nat.digitChar (n % 10)]).length = 2 := rfl
  omega

theorem infoText_eq (obj : Object) : infoText classNames obj = some (objInfo obj) := by
  simp [infoText, labelText_eq_spec, objInfo, specInfo]

theorem drawObject_eq (gts : String → Int → ℚ → Int → Size) (sx sy : ℚ) (f : Mat) (obj : Object) :
    drawObject gts sx sy f obj =
      some { f with drawn := f.drawn ++ (specShape sx sy obj ++ objLabel gts sx sy obj) } := by
  simp [drawObject, mapToOriginal_pts640, drawOutline_four, drawMarkers_four, infoText_eq,
    minCorner_four, Mat.draw, specShape, objLabel, objOrg, specMinX, specMinY]

theorem drawDetections_eq (gts : String → Int → ℚ → Int → Size) (sx sy : ℚ) (objs : List Object)
    (f : Mat) :
    drawDetections gts f objs sx sy =
      some { f with drawn := f.drawn ++
        objs.flatMap (fun o => specShape sx sy o ++ objLabel gts sx sy o) } := by
  unfold drawDetections
  induction objs generalizing f with
  | nil => simp
  | cons o rest ih =>
    rw [List.foldlM_cons, drawObject_eq]
    simp only [Option.bind_eq_bind, Option.some_bind]
    rw [ih]
    simp [List.flatMap_cons, List.append_assoc]

theorem objInfo_two_decimals (o : Object) (hp : |o.prob| < 10 ^ 26) :
    ∃ n : ℕ, |(n : ℚ) - |o.prob| * 100| ≤ 1 / 2 ∧
      objInfo o = specInfo o (twoDecimals (decide (o.prob < 0)) n) := by
  have hnn := roundHalfEven_nonneg (|o.prob| * 100) (by positivity)
  refine ⟨(roundHalfEven (|o.prob| * 100)).toNat, ?_, ?_⟩
  · have hnear := roundHalfEven_near (|o.prob| * 100)
    have hc : (((roundHalfEven (|o.prob| * 100)).toNat : ℕ) : ℚ) =
        (roundHalfEven (|o.prob| * 100) : ℚ) := by
      have h := Int.toNat_of_nonneg hnn
      exact_mod_cast congrArg (fun z : Int => (z : ℚ)) h
    rw [hc]; exact hnear
  · unfold objInfo
    rw [snprintf_of_length_le 32 _ (fmtFixed_two_length o.prob hp), fmtFixed_two]
    by_cases hneg : o.prob < 0 <;> simp [twoDecimals, hneg]

theorem texts_flatMap (gts : String → Int → ℚ → Int → Size) (sx sy : ℚ) (objs : List Object) :
    (objs.flatMap (fun o => specShape sx sy o ++ objLabel gts sx sy o)).filterMap DrawCmd.text? =
      objs.map objInfo := by
  induction objs with
  | nil => rfl
  | cons o rest ih =>
    rw [List.flatMap_cons, List.filterMap_append, ih, List.map_cons]
    rfl

theorem fmtFixed_one (v : ℚ) :
    fmtFixed 1 v = (if v < 0 then "-" else "") ++ toString ((roundHalfEven (|v| * 10)).toNat / 10)
      ++ "." ++ String.mk [Nat.digitChar ((roundHalfEven (|v| * 10)).toNat % 10)] := by
  simp [fmtFixed, fracDigits, List.range, List.range.loop]

theorem fpsText_of_tenths (fps : ℚ) (t : Int) (h0 : 0 ≤ fps) (ht : fps * 10 = (t : ℚ)) :
    fpsText fps = snprintf 64 ("FPS: " ++ toString (t.toNat / 10) ++ "."
      ++ String.mk [Nat.digitChar (t.toNat % 10)]) := by
  unfold fpsText
  rw [fmtFixed_one, abs_of_nonneg h0, ht, roundHalfEven_intCast, if_neg (not_lt.mpr h0)]
  simp [String.append_assoc]

theorem fpsUpdate_nonneg (prev ms : ℚ) : 0 ≤ fpsUpdate prev ms := by
  unfold fpsUpdate
  split_ifs with h
  · positivity
  · exact le_refl 0

theorem loopBody_frame (cfg : Config) (st : LoopState) (env : Env) (frame : Mat)
    (h : env.frame = some frame) :
    ∃ shown calls ph,
      loopBody cfg st env =
        some ({ phase := ph,
                fps := fpsUpdate st.fps ((elapsedMs env.now st.lastTick : Int) : ℚ),
                lastTick := env.now }, calls) ∧
      drawDetections cfg.getTextSize frame env.objects
          (scaleOf frame.cols cfg.modelW) (scaleOf frame.rows cfg.modelH) = some shown ∧
      Effect.putText (fpsText (fpsUpdate st.fps ((elapsedMs env.now st.lastTick : Int) : ℚ)))
        ∈ calls := by
  obtain ⟨shown, hs⟩ : ∃ shown, drawDetections cfg.getTextSize frame env.objects
      (scaleOf frame.cols cfg.modelW) (scaleOf frame.rows cfg.modelH) = some shown :=
    ⟨_, drawDetections_eq _ _ _ _ _⟩
  unfold loopBody
  rw [h]
  simp only [hs, Option.bind_eq_bind, Option.some_bind, Option.pure_def]
  split_ifs <;> exact ⟨_, _, _, rfl, rfl, by simp⟩

theorem fitInt_of_range (z : Int) (h1 : -2147483648 ≤ z) (h2 : z ≤ 2147483647) :
    fitInt z = z := by
  unfold fitInt INT_MIN INT_MAX
  rw [if_pos ⟨h1, h2⟩]

theorem fitInt_out (z : Int) (h : 2147483647 < z ∨ z < -2147483648) :
    fitInt z = -2147483648 := by
  unfold fitInt INT_MIN INT_MAX
  rw [if_neg (by omega)]

theorem fitInt_bounds (z : Int) : -2147483648 ≤ fitInt z ∧ fitInt z ≤ 2147483647 := by
  unfold fitInt INT_MIN INT_MAX
  split_ifs with h
  · exact h
  · omega

theorem wrapInt_of_range (z : Int) (h1 : -2147483648 ≤ z) (h2 : z ≤ 2147483647) :
    wrapInt z = z := by
  unfold wrapInt INT_MIN
  omega

theorem tdiv_num_den (v : ℚ) :
    Int.tdiv v.num v.den = if 0 ≤ v then ⌊v⌋ else ⌈v⌉ := by
  have hden : (0 : Int) ≤ (v.den : Int) := Int.natCast_nonneg _
  split_ifs with h
  · rw [Rat.floor_def]
    exact Int.tdiv_eq_ediv (Rat.num_nonneg.mpr h) hden
  · have hneg : 0 ≤ -v := by linarith [not_le.mp h]
    have hfl : ⌊-v⌋ = (-v).num / ((-v).den : Int) := Rat.floor_def
    rw [Rat.neg_num, Rat.neg_den] at hfl
    have hnn : 0 ≤ -v.num := by
      have := Rat.num_nonneg.mpr hneg
      rwa [Rat.neg_num] at this
    have ht : Int.tdiv (-v.num) v.den = -v.num / (v.den : Int) := Int.tdiv_eq_ediv hnn hden
    rw [Int.neg_tdiv] at ht
    have hc : ⌈v⌉ = -⌊-v⌋ := by rw [Int.floor_neg, neg_neg]
    rw [hc, hfl, ← ht, neg_neg]

theorem truncToInt_of_nonneg (v : ℚ) (h0 : 0 ≤ v) (h1 : v < 2147483648) :
    truncToInt v = ⌊v⌋ := by
  unfold truncToInt
  rw [tdiv_num_den, if_pos h0]
  apply fitInt_of_range
  · have := Int.floor_nonneg.mpr h0
    omega
  · have : ⌊v⌋ < 2147483648 := Int.floor_lt.mpr (by exact_mod_cast h1)
    omega

theorem truncToInt_of_neg (v : ℚ) (h0 : v < 0) (h1 : -2147483649 < v) :
    truncToInt v = ⌈v⌉ := by
  unfold truncToInt
  rw [tdiv_num_den, if_neg (not_le.mpr h0)]
  apply fitInt_of_range
  · have : (-2147483649 : Int) < ⌈v⌉ := Int.lt_ceil.mpr (by exact_mod_cast h1)
    omega
  · have : ⌈v⌉ ≤ 0 := Int.ceil_le.mpr (by exact_mod_cast h0.le)
    omega

theorem truncToInt_nonpos_of_neg (v : ℚ) (h0 : v < 0) : truncToInt v ≤ 0 := by
  unfold truncToInt
  rw [tdiv_num_den, if_neg (not_le.mpr h0)]
  have hc : ⌈v⌉ ≤ 0 := Int.ceil_le.mpr (by exact_mod_cast h0.le)
  unfold fitInt INT_MIN INT_MAX
  split_ifs <;> omega

theorem truncToInt_intCast (z : Int) (h1 : 0 ≤ z) (h2 : z ≤ 2147483647) :
    truncToInt (z : ℚ) = z := by
  rw [truncToInt_of_nonneg _ (by exact_mod_cast h1) (by exact_mod_cast (by omega : z < 2147483648))]
  exact Int.floor_intCast z

theorem sampleObject_info : objInfo sampleObject = "G | Red | conf=0.87" := by
  unfold objInfo sampleObject
  rw [snprintf_of_length_le 32 _ (fmtFixed_two_length _ (by norm_num [abs_of_nonneg])),
    fmtFixed_two]
  have h : roundHalfEven (|(87 / 100 : ℚ)| * 100) = 87 := by
    have : |(87 / 100 : ℚ)| * 100 = ((87 : Int) : ℚ) := by norm_num [abs_of_nonneg]
    rw [this, roundHalfEven_intCast]
  simp only [h]
  norm_num [specInfo, specClassName, colorName]
  decide

theorem sampleObject_points :
    specPoint 2 2 sampleObject 0 = ⟨20, 20⟩ ∧ specPoint 2 2 sampleObject 1 = ⟨40, 20⟩ ∧
    specPoint 2 2 sampleObject 2 = ⟨40, 40⟩ ∧ specPoint 2 2 sampleObject 3 = ⟨20, 40⟩ := by
  have e0 : sampleObject.landmarks 0 = 10 := rfl
  have e1 : sampleObject.landmarks 1 = 10 := rfl
  have e2 : sampleObject.landmarks 2 = 20 := rfl
  have e3 : sampleObject.landmarks 3 = 10 := rfl
  have e4 : sampleObject.landmarks 4 = 20 := rfl
  have e5 : sampleObject.landmarks 5 = 20 := rfl
  have e6 : sampleObject.landmarks 6 = 10 := rfl
  have e7 : sampleObject.landmarks 7 = 20 := rfl
  have p0 : specPoint 2 2 sampleObject 0 =
      ⟨sampleObject.landmarks 0 * 2, sampleObject.landmarks 1 * 2⟩ := rfl
  have p1 : specPoint 2 2 sampleObject 1 =
      ⟨sampleObject.landmarks 2 * 2, sampleObject.landmarks 3 * 2⟩ := rfl
  have p2 : specPoint 2 2 sampleObject 2 =
      ⟨sampleObject.landmarks 4 * 2, sampleObject.landmarks 5 * 2⟩ := rfl
  have p3 : specPoint 2 2 sampleObject 3 =
      ⟨sampleObject.landmarks 6 * 2, sampleObject.landmarks 7 * 2⟩ := rfl
  rw [p0, p1, p2, p3, e0, e1, e2, e3, e4, e5, e6, e7]
  norm_num

theorem sampleObject_org (gts : String → Int → ℚ → Int → Size)
    (h : (gts "G | Red | conf=0.87" FONT_HERSHEY_SIMPLEX (1 / 2) 1).height = 11) :
    objOrg gts 2 2 sampleObject = ⟨20, 14⟩ := by
  obtain ⟨q0, q1, q2, q3⟩ := sampleObject_points
  have hx : specMinX 2 2 sampleObject = ((20 : Int) : ℚ) := by
    simp only [specMinX, q0, q1, q2, q3]; norm_num
  have hy : specMinY 2 2 sampleObject = ((20 : Int) : ℚ) := by
    simp only [specMinY, q0, q1, q2, q3]; norm_num
  unfold objOrg textOrg
  rw [hx, hy, truncToInt_intCast 20 (by decide) (by decide), sampleObject_info, h]
  decide

theorem loopBody_none (cfg : Config) (st : LoopState) (env : Env) (h : env.frame = none) :
    loopBody cfg st env = some ({ st with phase := Phase.Stopped }, [Effect.read false]) := by
  unfold loopBody
  rw [h]

theorem loopBody_some (cfg : Config) (st : LoopState) (env : Env) (frame : Mat)
    (h : env.frame = some frame) :
    ∃ annotated,
      drawDetections cfg.getTextSize frame env.objects
        (scaleOf frame.cols cfg.modelW) (scaleOf frame.rows cfg.modelH) = some annotated ∧
      loopBody cfg st env =
        some ({ phase := if isQuitKey env.key then Phase.Stopped
                  else if env.key = keyCode ' ' then Phase.Paused else st.phase,
                fps := fpsUpdate st.fps ((elapsedMs env.now st.lastTick : Int) : ℚ),
                lastTick := env.now },
          iterationCalls cfg frame env.objects.length
              (fpsText (fpsUpdate st.fps ((elapsedMs env.now st.lastTick : Int) : ℚ)))
              (shownFrame annotated
                (fpsText (fpsUpdate st.fps ((elapsedMs env.now st.lastTick : Int) : ℚ))))
            ++ (if isQuitKey env.key then []
                else if env.key = keyCode ' ' then [Effect.waitKey 0]
                else if env.key = keyCode 's' then
                  [Effect.imwrite "result.jpg" (shownFrame annotated
                    (fpsText (fpsUpdate st.fps ((elapsedMs env.now st.lastTick : Int) : ℚ))))]
                else [])) := by
  refine ⟨_, drawDetections_eq _ _ _ _ _, ?_⟩
  unfold loopBody
  rw [h]
  simp only [drawDetections_eq, Option.bind_eq_bind, Option.some_bind, Option.pure_def]
  by_cases hq : isQuitKey env.key
  · have hq2 := hq
    unfold isQuitKey at hq2
    rw [if_pos hq2, if_pos hq, if_pos hq]
    simp [iterationCalls, shownFrame]
  · have hq2 := hq
    unfold isQuitKey at hq2
    rw [if_neg hq2, if_neg hq, if_neg hq]
    by_cases hs : env.key = keyCode ' '
    · rw [if_pos hs, if_pos hs, if_pos hs]
      simp [iterationCalls, shownFrame]
    · rw [if_neg hs, if_neg hs, if_neg hs]
      by_cases hw : env.key = keyCode 's'
      · rw [if_pos hw, if_pos hw]
        simp [iterationCalls, shownFrame]
      · rw [if_neg hw, if_neg hw]
        simp [iterationCalls, shownFrame]

theorem run_stopped (cfg : Config) (st : LoopState) (h : st.phase = Phase.Stopped)
    (envs : List Env) : run cfg st envs = some (st, []) := by
  induction envs with
  | nil => rfl
  | cons e rest ih =>
    simp [run, step, h, ih]

theorem run_paused_idle (cfg : Config) (st : LoopState) (h : st.phase = Phase.Paused)
    (envs : List Env) (hk : ∀ e ∈ envs, e.pausedKey = none) :
    run cfg st envs = some (st, []) := by
  induction envs with
  | nil => rfl
  | cons e rest ih =>
    have he : e.pausedKey = none := hk e (List.mem_cons_self _ _)
    have hr := ih (fun e2 h2 => hk e2 (List.mem_cons_of_mem _ h2))
    simp [run, step, h, he, hr]

/-! ## Claims -/

/-- C2: `colorForId` gives red (BGR 0,0,255) for 1, blue (BGR 255,0,0) for 0 and yellow
(BGR 0,255,255) for every other value such as 7; the three colours are pairwise distinct
and `colorName` names the same case ("Red", "Blue", "Other"). -/
theorem colorForId_three_cases (c : Int) :
    (c = 1 → colorForId c = Scalar.mk3 0 0 255 ∧ colorName c = "Red") ∧
    (c = 0 → colorForId c = Scalar.mk3 255 0 0 ∧ colorName c = "Blue") ∧
    (c ≠ 1 → c ≠ 0 → colorForId c = Scalar.mk3 0 255 255 ∧ colorName c = "Other") ∧
    Scalar.mk3 0 0 255 ≠ Scalar.mk3 255 0 0 ∧
    Scalar.mk3 0 0 255 ≠ Scalar.mk3 0 255 255 ∧
    Scalar.mk3 255 0 0 ≠ Scalar.mk3 0 255 255 ∧
    (colorForId c = Scalar.mk3 0 0 255 ↔ colorName c = "Red") ∧
    (colorForId c = Scalar.mk3 255 0 0 ↔ colorName c = "Blue") ∧
    (colorForId c = Scalar.mk3 0 255 255 ↔ colorName c = "Other") := by
  refine ⟨?_, ?_, ?_, by decide, by decide, by decide, ?_, ?_, ?_⟩
  · rintro rfl; exact ⟨rfl, rfl⟩
  · rintro rfl; exact ⟨rfl, rfl⟩
  · intro h1 h0; simp [colorForId, colorName, h1, h0]
  all_goals
    by_cases h1 : c = 1
    · subst h1; decide
    · by_cases h0 : c = 0
      · subst h0; decide
      · simp [colorForId, colorName, if_neg h1, if_neg h0] <;> decide

/-- Witness for C2 at the three representative inputs 1, 0 and 7. -/
theorem colorForId_three_cases_witness :
    (colorForId 1 = Scalar.mk3 0 0 255 ∧ colorName 1 = "Red") ∧
    (colorForId 0 = Scalar.mk3 255 0 0 ∧ colorName 0 = "Blue") ∧
    (colorForId 7 = Scalar.mk3 0 255 255 ∧ colorName 7 = "Other") :=
  ⟨(colorForId_three_cases 1).1 rfl, (colorForId_three_cases 0).2.1 rfl,
   (colorForId_three_cases 7).2.2.1 (by decide) (by decide)⟩

/-- C3: for every integer label the class name resolved in `drawDetections` is the
catalog entry `names[label]` when `0 <= label < 9` and the decimal text of the label
otherwise; the lookup is never out of bounds (the result is never `none`, and
`drawDetections` completes for every object list). Label 2 resolves to "2" and label 99
to "99". -/
theorem labelText_never_fatal (label : Int) :
    (0 ≤ label → label < 9 → ∃ h : label.toNat < classNames.size,
      labelText classNames label = some classNames[label.toNat]) ∧
    (¬ (0 ≤ label ∧ label < 9) → labelText classNames label = some (toString label)) ∧
    labelText classNames label ≠ none ∧
    (∀ (gts : String → Int → ℚ → Int → Size) (f : Mat) (objs : List Object) (sx sy : ℚ),
      drawDetections gts f objs sx sy ≠ none) ∧
    classNames = #["G", "1", "2", "3", "4", "5", "O", "Bs", "Bb"] ∧
    labelText classNames 2 = some "2" ∧ labelText classNames 99 = some "99" := by
  refine ⟨labelText_inRange label, labelText_outOfRange label, ?_, ?_, rfl, by decide, by decide⟩
  · rw [labelText_eq_spec]; exact Option.some_ne_none _
  · intro gts f objs sx sy
    rw [drawDetections_eq]; exact Option.some_ne_none _

/-- Witness for C3 at an in-range label (2) and at out-of-range labels (99 and -3). -/
theorem labelText_never_fatal_witness :
    (∃ h : (2 : Int).toNat < classNames.size,
      labelText classNames 2 = some classNames[(2 : Int).toNat]) ∧
    labelText classNames 99 = some (toString (99 : Int)) ∧
    labelText classNames (-3) = some (toString (-3 : Int)) :=
  ⟨(labelText_never_fatal 2).1 (by decide) (by decide),
   (labelText_never_fatal 99).2.1 (by decide),
   (labelText_never_fatal (-3)).2.1 (by decide)⟩

/-- C6: for every list of N objects `drawDetections` issues, object by object in list
order, the four segments `p0-p1, p1-p2, p2-p3, p3-p0` and then one filled circle at each
of `p0..p3`, all in `colorForId` of the object's colour attribute: the outline and marker
calls added to the frame are exactly the concatenation of `specShape` over the list, which
is 4N segments (N closed outlines) and 4N markers. -/
theorem drawDetections_shapes_in_order (gts : String → Int → ℚ → Int → Size) (f : Mat)
    (objs : List Object) (sx sy : ℚ) :
    ∃ out, drawDetections gts f objs sx sy = some out ∧
      out.drawn.filter DrawCmd.isShape =
        f.drawn.filter DrawCmd.isShape ++ objs.flatMap (specShape sx sy) ∧
      (out.drawn.filter DrawCmd.isLine).length =
        (f.drawn.filter DrawCmd.isLine).length + 4 * objs.length ∧
      (out.drawn.filter DrawCmd.isCircle).length =
        (f.drawn.filter DrawCmd.isCircle).length + 4 * objs.length := by
  refine ⟨_, drawDetections_eq gts sx sy objs f, ?_, ?_, ?_⟩
  · simp only [List.filter_append]
    congr 1
    induction objs with
    | nil => rfl
    | cons o rest ih =>
      rw [List.flatMap_cons, List.filter_append, ih, List.flatMap_cons]
      rfl
  · simp only [List.filter_append, List.length_append]
    congr 1
    induction objs with
    | nil => rfl
    | cons o rest ih =>
      rw [List.flatMap_cons, List.filter_append, List.length_append, ih, List.length_cons]
      simp [specShape, objLabel, DrawCmd.isLine, List.filter]
      omega
  · simp only [List.filter_append, List.length_append]
    congr 1
    induction objs with
    | nil => rfl
    | cons o rest ih =>
      rw [List.flatMap_cons, List.filter_append, List.length_append, ih, List.length_cons]
      simp [specShape, objLabel, DrawCmd.isCircle, List.filter]
      omega

/-- C4: for every object the label text `drawDetections` composes is exactly
`<class> | <color-name> | conf=<p>`, with `<class>` the resolved class name,
`<color-name>` the value of `colorName` and `<p>` the probability rounded to hundredths
and written with exactly two decimal places. The probability goes through a 32-byte
buffer, so the statement is made for probabilities below `10^26` in absolute value,
which covers every confidence of the data model (0.0 to 1.0). For label 0, colour 1 and
probability 0.87 the text is "G | Red | conf=0.87". -/
theorem drawDetections_label_text (gts : String → Int → ℚ → Int → Size) (f : Mat)
    (objs : List Object) (sx sy : ℚ) (hp : ∀ o ∈ objs, |o.prob| < 10 ^ 26) :
    (∃ out texts, drawDetections gts f objs sx sy = some out ∧
      out.drawn.filterMap DrawCmd.text? = f.drawn.filterMap DrawCmd.text? ++ texts ∧
      List.Forall₂ (fun (o : Object) (t : String) =>
        ∃ (cls : String) (n : ℕ), labelText classNames o.label = some cls ∧
          |(n : ℚ) - |o.prob| * 100| ≤ 1 / 2 ∧
          t = cls ++ " | " ++ colorName o.color ++ " | conf="
            ++ twoDecimals (decide (o.prob < 0)) n) objs texts) ∧
    infoText classNames sampleObject = some "G | Red | conf=0.87" := by
  refine ⟨⟨_, objs.map objInfo, drawDetections_eq gts sx sy objs f, ?_, ?_⟩, ?_⟩
  · rw [List.filterMap_append, texts_flatMap]
  · rw [List.forall₂_map_right_iff, List.forall₂_same]
    intro o ho
    obtain ⟨n, hn, he⟩ := objInfo_two_decimals o (hp o ho)
    exact ⟨specClassName o.label, n, labelText_eq_spec o.label, hn, he⟩
  · rw [infoText_eq, sampleObject_info]

/-- Witness for C4: the sample object (probability 0.87) on a fresh frame. -/
theorem drawDetections_label_text_witness :
    (∀ o ∈ [sampleObject], |o.prob| < 10 ^ 26) ∧
    ((∃ out texts, drawDetections sampleTextSize sampleFrame [sampleObject] 2 2 = some out ∧
      out.drawn.filterMap DrawCmd.text? = sampleFrame.drawn.filterMap DrawCmd.text? ++ texts ∧
      List.Forall₂ (fun (o : Object) (t : String) =>
        ∃ (cls : String) (n : ℕ), labelText classNames o.label = some cls ∧
          |(n : ℚ) - |o.prob| * 100| ≤ 1 / 2 ∧
          t = cls ++ " | " ++ colorName o.color ++ " | conf="
            ++ twoDecimals (decide (o.prob < 0)) n) [sampleObject] texts) ∧
    infoText classNames sampleObject = some "G | Red | conf=0.87") :=
  have h : ∀ o ∈ [sampleObject], |o.prob| < 10 ^ 26 := by
    intro o ho
    rw [List.mem_singleton] at ho
    subst ho
    norm_num [sampleObject, abs_of_nonneg]
  ⟨h, drawDetections_label_text sampleTextSize sampleFrame [sampleObject] 2 2 h⟩

/-- C5: in an iteration that captured a frame, the FPS the loop stores is `1000 / ms`
when the elapsed whole milliseconds `ms` are positive and 0 otherwise, so it is never
negative; it is the same whatever FPS value was held before (no smoothing), and its text
is what the loop stamps. Elapsed times 0, 500 and 1000 ms give 0, 2 and 1, rendered as
"FPS: 0.0", "FPS: 2.0" and "FPS: 1.0". -/
theorem fps_from_elapsed (cfg : Config) (st : LoopState) (env : Env) (frame : Mat)
    (h : env.frame = some frame) :
    (∃ st1 calls, loopBody cfg st env = some (st1, calls) ∧
      (0 < elapsedMs env.now st.lastTick →
        st1.fps = 1000 / ((elapsedMs env.now st.lastTick : Int) : ℚ)) ∧
      (elapsedMs env.now st.lastTick ≤ 0 → st1.fps = 0) ∧
      0 ≤ st1.fps ∧
      Effect.putText (fpsText st1.fps) ∈ calls ∧
      (∀ prev : ℚ, ∃ st2 calls2,
        loopBody cfg { st with fps := prev } env = some (st2, calls2) ∧ st2.fps = st1.fps)) ∧
    (∀ prev : ℚ, fpsUpdate prev 0 = 0 ∧ fpsUpdate prev 500 = 2 ∧ fpsUpdate prev 1000 = 1) ∧
    fpsText 0 = "FPS: 0.0" ∧ fpsText 2 = "FPS: 2.0" ∧ fpsText 1 = "FPS: 1.0" := by
  refine ⟨?_, ?_, ?_, ?_, ?_⟩
  · obtain ⟨shown, calls, ph, hb, -, hmem⟩ := loopBody_frame cfg st env frame h
    refine ⟨⟨ph, fpsUpdate st.fps ((elapsedMs env.now st.lastTick : Int) : ℚ), env.now⟩,
      calls, hb, ?_, ?_, fpsUpdate_nonneg st.fps _, hmem, ?_⟩
    · intro hpos
      have : (0 : ℚ) < ((elapsedMs env.now st.lastTick : Int) : ℚ) := by exact_mod_cast hpos
      simp [fpsUpdate, this]
    · intro hle
      have : ¬ (0 : ℚ) < ((elapsedMs env.now st.lastTick : Int) : ℚ) := by
        rw [not_lt]; exact_mod_cast hle
      simp [fpsUpdate, this]
    · intro prev
      obtain ⟨shown2, calls2, ph2, hb2, -, -⟩ :=
        loopBody_frame cfg { st with fps := prev } env frame h
      exact ⟨_, calls2, hb2, rfl⟩
  · intro prev
    norm_num [fpsUpdate]
  · rw [fpsText_of_tenths 0 0 (by norm_num) (by norm_num)]; decide
  · rw [fpsText_of_tenths 2 20 (by norm_num) (by norm_num)]; decide
  · rw [fpsText_of_tenths 1 10 (by norm_num) (by norm_num)]; decide

/-- Witness for C5: a frame captured 500 ms after the previous tick gives 2 FPS. -/
theorem fps_from_elapsed_witness :
    (sampleEnv 500000000 (-1)).frame = some sampleFrame ∧
    ∃ st1 calls, loopBody sampleConfig (initialState 0) (sampleEnv 500000000 (-1))
        = some (st1, calls) ∧ st1.fps = 2 ∧ Effect.putText "FPS: 2.0" ∈ calls := by
  refine ⟨rfl, ?_⟩
  obtain ⟨⟨st1, calls, hb, hpos, -, -, hmem, -⟩, -, -, h2, -⟩ :=
    fps_from_elapsed sampleConfig (initialState 0) (sampleEnv 500000000 (-1)) sampleFrame rfl
  have hms : elapsedMs (sampleEnv 500000000 (-1)).now (initialState 0).lastTick = 500 := by
    decide
  have hfps : st1.fps = 2 := by
    rw [hpos (by rw [hms]; decide), hms]; norm_num
  refine ⟨st1, calls, hb, hfps, ?_⟩
  rw [← h2, ← hfps]; exact hmem

/-- C7 (amended): for every four mapped points and every measured text height
`0 <= h <= INT_MAX - 2`, the text origin `drawDetections` computes has coordinates that
are never negative and leaves room for the text height (`origin.y - h >= 0`), wherever
the quadrilateral lies. When the minima over the four points satisfy `min x < 2^31` and
`-2147483643 < min y < 2^31` (so that the casts and the subtraction fit an `int`), the
origin is `(max(0, trunc(min x)), max(h + 2, trunc(min y) - 6))`: its x is the pixel
column of the minimum corner (0 when that is negative) and its y lies between 6 and 7
pixels above the minimum corner unless that would be less than `h + 2`, which it then
is. The last part states that this is the origin used for the label calls of every
object. -/
theorem textOrg_within_int_range (a b c d : Point2f) (sz : Size) (hh : 0 ≤ sz.height)
    (hmax : sz.height ≤ 2147483645) :
    (∃ mx my, minCorner [a, b, c, d] = some (mx, my) ∧
      (∀ p ∈ [a, b, c, d], mx ≤ p.x ∧ my ≤ p.y) ∧
      (∃ p ∈ [a, b, c, d], mx = p.x) ∧ (∃ p ∈ [a, b, c, d], my = p.y) ∧
      0 ≤ (textOrg mx my sz).x ∧ 0 ≤ (textOrg mx my sz).y ∧
      0 ≤ (textOrg mx my sz).y - sz.height ∧
      (mx < 2147483648 → -2147483643 < my → my < 2147483648 →
        textOrg mx my sz =
          ⟨max 0 (if 0 ≤ mx then ⌊mx⌋ else ⌈mx⌉),
           max (sz.height + 2) ((if 0 ≤ my then ⌊my⌋ else ⌈my⌉) - 6)⟩ ∧
        (0 ≤ mx → ((textOrg mx my sz).x : ℚ) ≤ mx ∧ mx < ((textOrg mx my sz).x : ℚ) + 1) ∧
        (mx < 0 → (textOrg mx my sz).x = 0) ∧
        ((sz.height : ℚ) + 8 ≤ my →
          ((textOrg mx my sz).y : ℚ) + 6 ≤ my ∧ my < ((textOrg mx my sz).y : ℚ) + 7) ∧
        (my < (sz.height : ℚ) + 8 → (textOrg mx my sz).y = sz.height + 2))) ∧
    (∀ (gts : String → Int → ℚ → Int → Size) (sx sy : ℚ) (f : Mat) (obj : Object),
      ∃ mx my info shape, minCorner (mapToOriginal sx sy (pts640 obj)) = some (mx, my) ∧
        drawObject gts sx sy f obj = some { f with drawn := f.drawn ++ (shape ++
          [DrawCmd.rectangle
             (labelRect (textOrg mx my (gts info FONT_HERSHEY_SIMPLEX (1 / 2) 1))
               (gts info FONT_HERSHEY_SIMPLEX (1 / 2) 1)) (Scalar.mk3 0 0 0) (-1),
           DrawCmd.putText info
             (labelTextPos (textOrg mx my (gts info FONT_HERSHEY_SIMPLEX (1 / 2) 1)))
             FONT_HERSHEY_SIMPLEX (1 / 2) (Scalar.mk3 255 255 255) 1]) }) := by
  have hw : wrapInt (sz.height + 2) = sz.height + 2 :=
    wrapInt_of_range _ (by omega) (by omega)
  constructor
  · refine ⟨_, _, minCorner_four a b c d, ?_, ?_, ?_, ?_, ?_, ?_, ?_⟩
    · intro p hp
      simp only [List.mem_cons, List.mem_singleton, List.not_mem_nil, or_false] at hp
      rcases hp with rfl | rfl | rfl | rfl <;> simp [min_le_iff]
    · rcases min_choice (min (min a.x b.x) c.x) d.x with h3 | h3
      · rcases min_choice (min a.x b.x) c.x with h2 | h2
        · rcases min_choice a.x b.x with h1 | h1
          · exact ⟨a, by simp, by rw [h3, h2, h1]⟩
          · exact ⟨b, by simp, by rw [h3, h2, h1]⟩
        · exact ⟨c, by simp, by rw [h3, h2]⟩
      · exact ⟨d, by simp, h3⟩
    · rcases min_choice (min (min a.y b.y) c.y) d.y with h3 | h3
      · rcases min_choice (min a.y b.y) c.y with h2 | h2
        · rcases min_choice a.y b.y with h1 | h1
          · exact ⟨a, by simp, by rw [h3, h2, h1]⟩
          · exact ⟨b, by simp, by rw [h3, h2, h1]⟩
        · exact ⟨c, by simp, by rw [h3, h2]⟩
      · exact ⟨d, by simp, h3⟩
    · exact le_max_left _ _
    · simp only [textOrg, hw]
      exact le_trans (by omega) (le_max_left (sz.height + 2) _)
    · simp only [textOrg, hw]
      have := le_max_left (sz.height + 2)
        (wrapInt (truncToInt (min (min (min a.y b.y) c.y) d.y) - 6))
      omega
    · generalize min (min (min a.x b.x) c.x) d.x = mx
      generalize min (min (min a.y b.y) c.y) d.y = my
      intro hx hy1 hy2
      have hX : max 0 (truncToInt mx) = max 0 (if 0 ≤ mx then ⌊mx⌋ else ⌈mx⌉) := by
        by_cases h0 : 0 ≤ mx
        · rw [truncToInt_of_nonneg mx h0 hx, if_pos h0]
        · have hn := not_le.mp h0
          have h1 := truncToInt_nonpos_of_neg mx hn
          have h2 : ⌈mx⌉ ≤ 0 := Int.ceil_le.mpr (by exact_mod_cast hn.le)
          rw [if_neg h0, max_eq_left h1, max_eq_left h2]
      have hY : wrapInt (truncToInt my - 6) = (if 0 ≤ my then ⌊my⌋ else ⌈my⌉) - 6 := by
        by_cases h0 : 0 ≤ my
        · rw [truncToInt_of_nonneg my h0 hy2, if_pos h0]
          have h1 := Int.floor_nonneg.mpr h0
          have h2 : ⌊my⌋ < 2147483648 := Int.floor_lt.mpr (by exact_mod_cast hy2)
          exact wrapInt_of_range _ (by omega) (by omega)
        · have hn := not_le.mp h0
          rw [truncToInt_of_neg my hn (by linarith), if_neg h0]
          have h1 : ⌈my⌉ ≤ 0 := Int.ceil_le.mpr (by exact_mod_cast hn.le)
          have h2 : (-2147483643 : Int) < ⌈my⌉ := Int.lt_ceil.mpr (by exact_mod_cast hy1)
          exact wrapInt_of_range _ (by omega) (by omega)
      have hform : textOrg mx my sz =
          ⟨max 0 (if 0 ≤ mx then ⌊mx⌋ else ⌈mx⌉),
           max (sz.height + 2) ((if 0 ≤ my then ⌊my⌋ else ⌈my⌉) - 6)⟩ := by
        simp only [textOrg, hw, hX, hY]
      refine ⟨hform, ?_, ?_, ?_, ?_⟩
      · intro h0
        rw [hform]
        simp only [if_pos h0]
        rw [max_eq_right (Int.floor_nonneg.mpr h0)]
        exact ⟨Int.floor_le mx, Int.lt_floor_add_one mx⟩
      · intro hn
        rw [hform]
        simp only [if_neg (not_le.mpr hn)]
        exact max_eq_left (Int.ceil_le.mpr (by exact_mod_cast hn.le))
      · intro hbig
        have h0 : 0 ≤ my := by
          have : (0 : ℚ) ≤ (sz.height : ℚ) := by exact_mod_cast hh
          linarith
        have hfl : sz.height + 8 ≤ ⌊my⌋ := Int.le_floor.mpr (by push_cast; exact hbig)
        rw [hform]
        simp only [if_pos h0]
        rw [max_eq_right (by omega)]
        have h1 := Int.floor_le my
        have h2 := Int.lt_floor_add_one my
        push_cast
        constructor <;> linarith
      · intro hsmall
        rw [hform]
        simp only
        apply max_eq_left
        by_cases h0 : 0 ≤ my
        · rw [if_pos h0]
          have : ⌊my⌋ < sz.height + 8 := Int.floor_lt.mpr (by push_cast; exact hsmall)
          omega
        · rw [if_neg h0]
          have : ⌈my⌉ ≤ 0 := Int.ceil_le.mpr (by exact_mod_cast (not_le.mp h0).le)
          omega
  · intro gts sx sy f obj
    refine ⟨specMinX sx sy obj, specMinY sx sy obj, objInfo obj, specShape sx sy obj, ?_, ?_⟩
    · rw [mapToOriginal_pts640, minCorner_four]
      rfl
    · rw [drawObject_eq]
      rfl

/-- Witness for C7: a quadrilateral whose minimum corner is (500.5, 300.75), with text
height 11, gets the origin (500, 294); one lying wholly at negative coordinates gets
(0, 13). -/
theorem textOrg_within_int_range_witness :
    ((0 : Int) ≤ (⟨171, 11⟩ : Size).height ∧ (⟨171, 11⟩ : Size).height ≤ 2147483645) ∧
    (∃ mx my, minCorner [⟨1001 / 2, 1203 / 4⟩, ⟨600, 1203 / 4⟩, ⟨600, 400⟩, ⟨1001 / 2, 400⟩]
        = some (mx, my) ∧ textOrg mx my ⟨171, 11⟩ = ⟨500, 294⟩) ∧
    (∃ mx my, minCorner [⟨-50, -40⟩, ⟨-10, -40⟩, ⟨-10, -5⟩, ⟨-50, -5⟩] = some (mx, my) ∧
      textOrg mx my ⟨171, 11⟩ = ⟨0, 13⟩) := by
  refine ⟨⟨by decide, by decide⟩, ?_, ?_⟩
  · obtain ⟨⟨mx, my, hm, -, -, -, -, -, -, hform⟩, -⟩ :=
      textOrg_within_int_range ⟨1001 / 2, 1203 / 4⟩ ⟨600, 1203 / 4⟩ ⟨600, 400⟩ ⟨1001 / 2, 400⟩
        ⟨171, 11⟩ (by decide) (by decide)
    refine ⟨mx, my, hm, ?_⟩
    rw [minCorner_four] at hm
    have hxy := Prod.mk.inj (Option.some.inj hm)
    have hx : mx = 1001 / 2 := by rw [← hxy.1]; norm_num
    have hy : my = 1203 / 4 := by rw [← hxy.2]; norm_num
    subst hx hy
    rw [(hform (by norm_num) (by norm_num) (by norm_num)).1]
    have f1 : ⌊(1001 / 2 : ℚ)⌋ = 500 := by rw [Int.floor_eq_iff]; norm_num
    have f2 : ⌊(1203 / 4 : ℚ)⌋ = 300 := by rw [Int.floor_eq_iff]; norm_num
    rw [if_pos (by norm_num), if_pos (by norm_num), f1, f2]
    decide
  · obtain ⟨⟨mx, my, hm, -, -, -, -, -, -, hform⟩, -⟩ :=
      textOrg_within_int_range ⟨-50, -40⟩ ⟨-10, -40⟩ ⟨-10, -5⟩ ⟨-50, -5⟩
        ⟨171, 11⟩ (by decide) (by decide)
    refine ⟨mx, my, hm, ?_⟩
    rw [minCorner_four] at hm
    have hxy := Prod.mk.inj (Option.some.inj hm)
    have hx : mx = -50 := by rw [← hxy.1]; norm_num
    have hy : my = -40 := by rw [← hxy.2]; norm_num
    subst hx hy
    obtain ⟨-, -, hx0, -, hy0⟩ := hform (by norm_num) (by norm_num) (by norm_num)
    have e1 := hx0 (by norm_num)
    have e2 := hy0 (by norm_num)
    cases hc : textOrg (-50) (-40) ⟨171, 11⟩ with
    | mk x y =>
      rw [hc] at e1 e2
      simp only at e1 e2
      rw [e1, e2]
      decide

/-- C7 (counterexample): for the quadrilateral with minimum corner (3000000000, 300) and
text height 11 the code's origin has x = 0, while `max(0, trunc(min x))` is 3000000000:
the cast `(int)min_x` does not fit an `int`. Likewise a text height of `INT_MAX` makes
`textSize.height + 2` overflow, and the origin computed for the corner (0, 0) has y = -6. -/
theorem textOrg_formula_fails_out_of_range :
    minCorner [⟨3000000000, 300⟩, ⟨3000000256, 300⟩, ⟨3000000256, 400⟩, ⟨3000000000, 400⟩]
      = some (3000000000, 300) ∧
    (textOrg 3000000000 300 ⟨171, 11⟩).x = 0 ∧
    max 0 (if (0 : ℚ) ≤ 3000000000 then ⌊(3000000000 : ℚ)⌋ else ⌈(3000000000 : ℚ)⌉)
      = 3000000000 ∧
    (textOrg 0 0 ⟨171, 2147483647⟩).y = -6 := by
  have hfl : ⌊(3000000000 : ℚ)⌋ = 3000000000 := by
    exact_mod_cast Int.floor_intCast (3000000000 : Int)
  refine ⟨?_, ?_, ?_, ?_⟩
  rotate_right
  · have ht : truncToInt (0 : ℚ) = 0 := by
      exact_mod_cast truncToInt_intCast 0 (by decide) (by decide)
    simp only [textOrg, ht]
    decide
  · rw [minCorner_four]
    norm_num
  · have ht : truncToInt (3000000000 : ℚ) = -2147483648 := by
      unfold truncToInt
      rw [tdiv_num_den, if_pos (by norm_num), hfl]
      exact fitInt_out _ (Or.inl (by decide))
    simp only [textOrg, ht]
    decide
  · rw [if_pos (by norm_num), hfl]
    decide

/-- C10 (evaluation at a failing input): for the sample object drawn at scale 2 with a
measured text size of 171 x 11, `drawDetections` draws the background rectangle with
top-left (20, 3) and size 175 x 15 and then the text with its bottom-left at (22, 12).
The measured box of that text spans y from 1 to 12, and its top-left pixel (22, 1) lies
outside the rectangle. For every origin and size the top row of the text box is above the
rectangle, while horizontally the box lies inside the rectangle's columns. -/
theorem labelRect_misses_text_top :
    (∃ out, drawDetections sampleTextSize sampleFrame [sampleObject] 2 2 = some out ∧
      out.drawn.drop 8 =
        [DrawCmd.rectangle ⟨20, 3, 175, 15⟩ (Scalar.mk3 0 0 0) (-1),
         DrawCmd.putText "G | Red | conf=0.87" ⟨22, 12⟩ FONT_HERSHEY_SIMPLEX (1 / 2)
           (Scalar.mk3 255 255 255) 1]) ∧
    ¬ (Rect.contains ⟨20, 3, 175, 15⟩ ⟨22, 12 - 11⟩) ∧
    (∀ (org : Point) (sz : Size),
      ¬ (labelRect org sz).contains ⟨(labelTextPos org).x, (labelTextPos org).y - sz.height⟩) ∧
    (∀ (org : Point) (sz : Size),
      (labelRect org sz).x ≤ (labelTextPos org).x ∧
      (labelTextPos org).x + sz.width < (labelRect org sz).x + (labelRect org sz).width) := by
  refine ⟨⟨_, drawDetections_eq _ _ _ _ _, ?_⟩, by decide, ?_, ?_⟩
  · have horg := sampleObject_org sampleTextSize rfl
    simp only [List.flatMap_cons, List.flatMap_nil, List.append_nil, sampleFrame,
      List.nil_append, specShape, objLabel, horg, sampleObject_info]
    rfl
  · intro org sz h
    simp only [Rect.contains, labelRect, labelTextPos] at h
    omega
  · intro org sz
    simp only [labelRect, labelTextPos]
    omega

/-- C8: from `Running`, with a frame captured, a polled quit key (Esc = 27, `q`, `Q`)
leads to `Stopped` in that same iteration: the iteration made one capture and one
inference call, the key poll is its last call, and no later step makes any call. A polled
space leads to `Paused` (blocked in `waitKey(0)`): as long as no key arrives the
controller stays `Paused` and makes no call, so no capture and no inference, whatever
the source could deliver; when a key arrives, whichever it is, the controller is
`Running` again. -/
theorem quit_and_pause_transitions (cfg : Config) (st : LoopState) (env : Env) (frame : Mat)
    (hrun : st.phase = Phase.Running) (hf : env.frame = some frame) :
    (isQuitKey env.key →
      ∃ st1 calls, step cfg st env = some (st1, calls) ∧ st1.phase = Phase.Stopped ∧
        calls.filter Effect.isCaptureOrInfer = [Effect.read true, Effect.infer cfg.detectColor] ∧
        calls.getLast? = some (Effect.waitKey 1) ∧
        ∀ envs, run cfg st1 envs = some (st1, [])) ∧
    (env.key = keyCode ' ' →
      ∃ st1 calls, step cfg st env = some (st1, calls) ∧ st1.phase = Phase.Paused ∧
        calls.getLast? = some (Effect.waitKey 0) ∧
        (∀ envs, (∀ e ∈ envs, e.pausedKey = none) → run cfg st1 envs = some (st1, [])) ∧
        (∀ (e : Env) (k : Int), e.pausedKey = some k →
          step cfg st1 e = some ({ st1 with phase := Phase.Running }, []))) ∧
    (isQuitKey 27 ∧ isQuitKey 113 ∧ isQuitKey 81 ∧
      keyCode 'q' = 113 ∧ keyCode 'Q' = 81 ∧ keyCode ' ' = 32) := by
  obtain ⟨annotated, -, hb⟩ := loopBody_some cfg st env frame hf
  have hstep : step cfg st env = loopBody cfg st env := by
    unfold step; rw [hrun]
  refine ⟨?_, ?_, by decide⟩
  · intro hq
    rw [if_pos hq, if_pos hq] at hb
    refine ⟨_, _, hstep.trans hb, rfl, ?_, ?_, ?_⟩
    · simp [iterationCalls, Effect.isCaptureOrInfer, List.filter]
    · simp [iterationCalls]
    · intro envs
      exact run_stopped cfg _ rfl envs
  · intro hs
    have hq : ¬ isQuitKey env.key := by rw [hs]; decide
    rw [if_neg hq, if_neg hq, if_pos hs, if_pos hs] at hb
    refine ⟨_, _, hstep.trans hb, rfl, ?_, ?_, ?_⟩
    · simp [iterationCalls]
    · intro envs hk
      exact run_paused_idle cfg _ rfl envs hk
    · intro e k hk
      simp [step, hk]

/-- Witness for C8: the sample iteration with `q` (113) polled, and with space (32). -/
theorem quit_and_pause_transitions_witness :
    ((initialState 0).phase = Phase.Running ∧ (sampleEnv 5000000 113).frame = some sampleFrame ∧
      isQuitKey (sampleEnv 5000000 113).key ∧
      ∃ st1 calls, step sampleConfig (initialState 0) (sampleEnv 5000000 113) = some (st1, calls) ∧
        st1.phase = Phase.Stopped ∧
        calls.filter Effect.isCaptureOrInfer =
          [Effect.read true, Effect.infer sampleConfig.detectColor] ∧
        calls.getLast? = some (Effect.waitKey 1) ∧
        ∀ envs, run sampleConfig st1 envs = some (st1, [])) ∧
    ((sampleEnv 5000000 32).key = keyCode ' ' ∧
      ∃ st1 calls, step sampleConfig (initialState 0) (sampleEnv 5000000 32) = some (st1, calls) ∧
        st1.phase = Phase.Paused ∧
        calls.getLast? = some (Effect.waitKey 0) ∧
        (∀ envs, (∀ e ∈ envs, e.pausedKey = none) →
          run sampleConfig st1 envs = some (st1, [])) ∧
        (∀ (e : Env) (k : Int), e.pausedKey = some k →
          step sampleConfig st1 e = some ({ st1 with phase := Phase.Running }, []))) :=
  ⟨⟨rfl, rfl, by decide,
    (quit_and_pause_transitions sampleConfig (initialState 0) (sampleEnv 5000000 113)
      sampleFrame rfl rfl).1 (by decide)⟩,
   ⟨by decide,
    (quit_and_pause_transitions sampleConfig (initialState 0) (sampleEnv 5000000 32)
      sampleFrame rfl rfl).2.1 (by decide)⟩⟩

/-- C9: an iteration started in `Running` ends in `Stopped` if and only if its capture
fails or the key it polls is a quit key. A failed capture stops the loop with the failed
read as the only call, so before any resize, inference or drawing. With a frame captured
and a polled key that is neither a quit key nor space (the snapshot key `s`, an
unrecognised key, no key), the controller is `Running` at the next iteration; the
snapshot key additionally writes the presented annotated frame to "result.jpg", and no
other key writes a file. -/
theorem stop_iff_capture_failure_or_quit (cfg : Config) (st : LoopState) (env : Env)
    (hrun : st.phase = Phase.Running) :
    ∃ st1 calls, step cfg st env = some (st1, calls) ∧
      (st1.phase = Phase.Stopped ↔ (env.frame = none ∨ isQuitKey env.key)) ∧
      (env.frame = none → calls = [Effect.read false]) ∧
      (env.frame = none → calls.filter Effect.isProcessing = []) ∧
      (env.frame ≠ none → ¬ isQuitKey env.key → env.key ≠ keyCode ' ' →
        st1.phase = Phase.Running) ∧
      (env.frame ≠ none → env.key = keyCode 's' →
        ∃ shown, Effect.imshow "RP24 Detection" shown ∈ calls ∧
          calls.filter Effect.isWrite = [Effect.imwrite "result.jpg" shown]) ∧
      (env.key ≠ keyCode 's' → calls.filter Effect.isWrite = []) := by
  have hstep : step cfg st env = loopBody cfg st env := by
    unfold step; rw [hrun]
  cases hfr : env.frame with
  | none =>
    refine ⟨_, _, hstep.trans (loopBody_none cfg st env hfr), ?_, ?_, ?_, ?_, ?_, ?_⟩
    · simp
    · intro _; rfl
    · intro _; rfl
    · intro h; exact absurd rfl h
    · intro h; exact absurd rfl h
    · intro _; rfl
  | some frame =>
    obtain ⟨annotated, -, hb⟩ := loopBody_some cfg st env frame hfr
    refine ⟨_, _, hstep.trans hb, ?_, ?_, ?_, ?_, ?_, ?_⟩
    · by_cases hq : isQuitKey env.key
      · simp [hq]
      · by_cases hs : env.key = keyCode ' '
        · simp [hq, hs]
        · simp [hq, hs, hrun]
    · intro h; exact absurd h (by simp)
    · intro h; exact absurd h (by simp)
    · intro _ hq hs
      simp [hq, hs, hrun]
    · intro _ hs
      have hq : ¬ isQuitKey env.key := by rw [hs]; decide
      have hsp : env.key ≠ keyCode ' ' := by rw [hs]; decide
      refine ⟨shownFrame annotated
        (fpsText (fpsUpdate st.fps ((elapsedMs env.now st.lastTick : Int) : ℚ))), ?_, ?_⟩
      · simp [iterationCalls]
      · rw [if_neg hq, if_neg hsp, if_pos hs]
        simp [iterationCalls, Effect.isWrite, List.filter]
    · intro hs
      by_cases hq : isQuitKey env.key
      · simp [hq, iterationCalls, Effect.isWrite, List.filter]
      · by_cases hsp : env.key = keyCode ' '
        · simp [hq, hsp, iterationCalls, Effect.isWrite, List.filter]
        · simp [hq, hsp, hs, iterationCalls, Effect.isWrite, List.filter]

/-- Witness for C9: the sample iteration with the snapshot key `s` (115) stays `Running`
and writes "result.jpg"; an iteration whose capture fails stops with the read alone. -/
theorem stop_iff_capture_failure_or_quit_witness :
    ((initialState 0).phase = Phase.Running ∧
      (sampleEnv 5000000 115).frame ≠ none ∧ ¬ isQuitKey (sampleEnv 5000000 115).key ∧
      (sampleEnv 5000000 115).key ≠ keyCode ' ' ∧ (sampleEnv 5000000 115).key = keyCode 's' ∧
      ∃ st1 calls, step sampleConfig (initialState 0) (sampleEnv 5000000 115) = some (st1, calls) ∧
        st1.phase = Phase.Running ∧
        ∃ shown, Effect.imshow "RP24 Detection" shown ∈ calls ∧
          calls.filter Effect.isWrite = [Effect.imwrite "result.jpg" shown]) ∧
    (∃ st1 calls, step sampleConfig (initialState 0) ⟨none, [], 5000000, -1, none⟩
        = some (st1, calls) ∧ st1.phase = Phase.Stopped ∧ calls = [Effect.read false]) := by
  have hne : (sampleEnv 5000000 115).frame ≠ none := by simp [sampleEnv]
  have hq : ¬ isQuitKey (sampleEnv 5000000 115).key := by decide
  have hsp : (sampleEnv 5000000 115).key ≠ keyCode ' ' := by decide
  have hs : (sampleEnv 5000000 115).key = keyCode 's' := by decide
  refine ⟨⟨rfl, hne, hq, hsp, hs, ?_⟩, ?_⟩
  · obtain ⟨st1, calls, hb, -, -, -, hr, hw, -⟩ :=
      stop_iff_capture_failure_or_quit sampleConfig (initialState 0) (sampleEnv 5000000 115) rfl
    exact ⟨st1, calls, hb, hr hne hq hsp, hw hne hs⟩
  · obtain ⟨st1, calls, hb, hiff, hc, -, -, -, -⟩ :=
      stop_iff_capture_failure_or_quit sampleConfig (initialState 0)
        ⟨none, [], 5000000, -1, none⟩ rfl
    exact ⟨st1, calls, hb, hiff.mpr (Or.inl rfl), hc rfl⟩

end RP24
